import Mathlib

/-!
Shallow embedding of the command execution engine of
`src/src/tools/command_executor.py` (class `CommandExecutor`), together with
theorems settling the specification claims about it.

Effectful parts (process spawning, the wall clock, callbacks) are embedded by
passing their observable behaviour explicitly: the outcome of a spawned
process is a parameter of the function that consumes it, timestamps are
parameters, and the side effects performed (result writes, callback
invocations, terminate/kill actions) are returned as explicit event traces.
-/

namespace CommandExecutor

/-! ## Policy state (`__init__` fields `allowed_commands`, `blocked_commands`) -/

/-- The policy-relevant fields of `CommandExecutor`.
`allowed_commands` is `Optional[List[str]]` (`none` = allow everything);
`blocked_commands` is the list stored by `__init__`. -/
structure CommandPolicy where
  allowed_commands : Option (List String)
  blocked_commands : List String
deriving Repr, DecidableEq

/-- Constructor line `self.blocked_commands = blocked_commands or []`:
Python `or` yields `[]` when the argument is `None` (and an empty list stays
empty). -/
def init_blocked_commands (blocked_commands : Option (List String)) : List String :=
  match blocked_commands with
  | none => []
  | some l => l

/-- The policy of an executor constructed with explicit arguments. -/
def initPolicy (allowed_commands : Option (List String))
    (blocked_commands : Option (List String)) : CommandPolicy :=
  { allowed_commands := allowed_commands
    blocked_commands := init_blocked_commands blocked_commands }

/-- The policy of `CommandExecutor()` built with all-default arguments
(`allowed_commands=None`, `blocked_commands=None`). -/
def defaultPolicy : CommandPolicy := initPolicy none none

/-- Characters removed by Python's `str.strip()` with no argument (the ASCII
whitespace; the embedding covers ASCII command text). -/
def isPySpace (c : Char) : Bool :=
  c = ' ' || c = '\t' || c = '\n' || c = '\x0d' || c = '\x0b' || c = '\x0c'

/-- Python `str.strip()`: drop leading and trailing whitespace. -/
def pyStrip (s : String) : String :=
  ⟨((s.data.dropWhile isPySpace).reverse.dropWhile isPySpace).reverse⟩

/-- Python `str.lower()` (ASCII case mapping). -/
def pyLower (s : String) : String :=
  ⟨s.data.map Char.toLower⟩

/-- Python `str.startswith(prefix)`. -/
def pyStartsWith (s pre : String) : Bool :=
  pre.data.isPrefixOf s.data

/-- The allow-list loop of `_is_command_allowed`:
`command.strip().startswith(allowed_cmd)` for some entry. -/
def allowListHit (allowed : List String) (command : String) : Bool :=
  allowed.any (fun allowed_cmd => pyStartsWith (pyStrip command) allowed_cmd)

/-- The block-list loop of `_is_command_allowed`:
`command.strip().lower().startswith(blocked_cmd.lower())` for some entry. -/
def blockListHit (blocked : List String) (command : String) : Bool :=
  blocked.any (fun blocked_cmd => pyStartsWith (pyLower (pyStrip command)) (pyLower blocked_cmd))

/-- Translation of `CommandExecutor._is_command_allowed`.  Python's
`if self.allowed_commands:` enters the allow-list check only when the field is
neither `None` nor the empty list; a miss there returns `False` at once.
Otherwise any block-list hit returns `False`, and the command is allowed. -/
def is_command_allowed (p : CommandPolicy) (command : String) : Bool :=
  match p.allowed_commands with
  | some l =>
      if !l.isEmpty && !allowListHit l command then false
      else !blockListHit p.blocked_commands command
  | none => !blockListHit p.blocked_commands command

/-- Block-list fallback the CLI layer (`command_handler.py` line 59) passes
when its settings have no `blocked_commands` entry. -/
def cliFallbackBlocked : List String := ["rm -rf /", "del /f /s /q"]

/-! ## Command history (`_add_to_history`, `get_command_history`) -/

/-- One entry of `self.command_history`: the dict
`{"command": ..., "time": time.time(), "cwd": ...}` appended by
`_add_to_history`.  The wall-clock float is abstracted to a tick. -/
structure HistoryEntry where
  command : String
  time : Nat
  cwd : String
deriving Repr, DecidableEq

/-- Value of `self.max_history` set in the constructor. -/
def max_history : Nat := 100

/-- Translation of `CommandExecutor._add_to_history`: append the entry, then
`if len(self.command_history) > self.max_history: self.command_history.pop(0)`
(dropping the oldest entry). -/
def add_to_history (history : List HistoryEntry) (e : HistoryEntry) : List HistoryEntry :=
  let h := history ++ [e]
  if max_history < h.length then h.tail else h

/-- Translation of `CommandExecutor.get_command_history`: returns
`self.command_history[-count:]`.  For a natural `count`, Python's negative
slice denotes the whole list when `count = 0` (since `-0 == 0`) and the last
`count` elements otherwise (all of them when `count` exceeds the length). -/
def get_command_history (history : List HistoryEntry) (count : Nat) : List HistoryEntry :=
  if count = 0 then history else history.drop (history.length - count)

/-! ## Result dictionaries -/

/-- Result dicts returned by the executor, one constructor per dict shape:
the foreground/background completion record
`{"success": True, "stdout", "stderr", "return_code", "command", "timeout",
"background"}`, the background submission record
`{"success": True, "task_id", "command", "timeout", "background": True}`,
and the error record `{"error": msg}`. -/
inductive ExecResult where
  | success (stdout stderr : String) (return_code : Int)
      (command : String) (timeout : Nat) (background : Bool)
  | submitted (task_id command : String) (timeout : Nat)
  | error (msg : String)
deriving Repr, DecidableEq

/-- Error message returned by `execute_command` on policy denial. -/
def denyMsg : String := "命令被禁止执行"

/-- Error message of `_execute_foreground` on `subprocess.TimeoutExpired`
(the f-string interpolates the timeout in seconds). -/
def fgTimeoutMsg (timeout : Nat) : String :=
  "命令执行超时: " ++ (toString timeout ++ "秒")

/-- Error message of `_execute_foreground` on any other exception
(spawn-level OS failure). -/
def fgFailMsg (msg : String) : String := "命令执行失败: " ++ msg

/-- Error message of `_execute_background_task`'s exception handler. -/
def bgFailMsg (msg : String) : String := "后台任务执行失败: " ++ msg

/-! ## Foreground execution (`_execute_foreground`) -/

/-- Observable behaviour of one `subprocess.run` call.  `timedOut` stands for
`subprocess.TimeoutExpired` raised by `run` (which per the Python library's
documented semantics kills and waits for the child before re-raising, so the
process is gone when the except branch runs); `raised msg` is any other
exception, such as a spawn-level OS failure. -/
inductive RunOutcome where
  | completed (stdout stderr : String) (returncode : Int)
  | timedOut
  | raised (msg : String)
deriving Repr, DecidableEq

/-- Translation of `CommandExecutor._execute_foreground`: returns the completion record on
natural exit, a timeout error on `TimeoutExpired`, and a failure error on any
other exception. -/
def execute_foreground (command : String) (timeout : Nat)
    (outcome : RunOutcome) : ExecResult :=
  match outcome with
  | .completed stdout stderr returncode =>
      .success stdout stderr returncode command timeout false
  | .timedOut => .error (fgTimeoutMsg timeout)
  | .raised msg => .error (fgFailMsg msg)

/-! ## Background tasks (`_execute_background`, `_execute_background_task`,
`get_background_task`, `clear_background_tasks`) -/

/-- Task id generation in `_execute_background`:
`f"bg_{int(time.time() * 1000000)}"`, a function of the microsecond tick
alone. -/
def make_task_id (tick : Nat) : String := "bg_" ++ toString tick

/-- The task dict stored in `self.background_tasks` (the process handle,
environment and callback fields are carried by the watchdog model below). -/
structure BgTask where
  id : String
  command : String
  start_time : Nat
  timeout : Nat
  cwd : String
  running : Bool
  result : Option ExecResult
deriving Repr, DecidableEq

/-- Lookup in the task registry (a Python dict modelled as an
insertion-ordered association list with unique keys). -/
def dictLookup : List (String × BgTask) → String → Option BgTask
  | [], _ => none
  | (k, v) :: rest, key => if k = key then some v else dictLookup rest key

/-- Python dict assignment `d[key] = v`: replaces in place when the key is
present, appends otherwise. -/
def dictInsert (reg : List (String × BgTask)) (key : String) (v : BgTask) :
    List (String × BgTask) :=
  if (reg.map Prod.fst).contains key then
    reg.map (fun p => if p.1 = key then (key, v) else p)
  else reg ++ [(key, v)]

/-- Translation of `CommandExecutor._execute_background`: build the task dict in `Running`
state, store it under the tick-derived id, and return the submission record
immediately.  `now` is `time.time()` (the recorded `start_time`) and `tick`
is the microsecond tick the id is derived from. -/
def execute_background (reg : List (String × BgTask)) (command : String)
    (timeout : Nat) (cwd : String) (now tick : Nat) :
    ExecResult × List (String × BgTask) :=
  let task_id := make_task_id tick
  let task : BgTask :=
    { id := task_id, command := command, start_time := now, timeout := timeout
      cwd := cwd, running := true, result := none }
  (.submitted task_id command timeout, dictInsert reg task_id task)

/-- Observable behaviour of the process spawned by one watchdog run.
`finished` = `poll()` turned non-`None` before the timeout;
`timedOutDies` = still running when the timeout elapsed, and dead within the
5-second grace after `terminate()`;
`timedOutSurvives` = still alive after the grace, so `wait(timeout=5)` raised
`TimeoutExpired` (carrying message `msg`);
`spawnRaises` = `Popen` itself raised. -/
inductive BgOutcome where
  | spawnRaises (msg : String)
  | finished (stdout stderr : String) (returncode : Int)
  | timedOutDies (stdout stderr : String) (returncode : Int)
  | timedOutSurvives (msg : String)
deriving Repr, DecidableEq

/-- Behaviour of the optional completion callback: absent, returning
normally, or raising an exception with message `msg` when first invoked. -/
inductive CallbackSpec where
  | noCallback
  | succeeds
  | raises (msg : String)
deriving Repr, DecidableEq

/-- Truthiness of `task["callback"]`. -/
def hasCb : CallbackSpec → Bool
  | .noCallback => false
  | _ => true

/-- Process-control actions the watchdog performed, in order. -/
inductive WatchAction where
  | spawn
  | terminate
  | waitGrace
  | kill
  | communicate
deriving Repr, DecidableEq

/-- Mutations of the task record and callback invocations, in order. -/
inductive TaskEvent where
  | setResult (r : ExecResult)
  | setRunningFalse
  | invokeCallback (r : ExecResult)
deriving Repr, DecidableEq

/-- Final observable state of one watchdog run: the task's `result` and
`running` fields, the ordered task-record events, and the ordered
process-control actions. -/
structure TaskFinal where
  result : Option ExecResult
  running : Bool
  events : List TaskEvent
  actions : List WatchAction
deriving Repr, DecidableEq

/-- The completion record written by the watchdog (`"background": True`). -/
def bgResult (command : String) (timeout : Nat) (stdout stderr : String)
    (returncode : Int) : ExecResult :=
  .success stdout stderr returncode command timeout true

/-- The `except` branch of `_execute_background_task`: overwrite `result`
with the error record, clear `running`, and invoke the callback (if truthy)
with a fresh error record. -/
def bgExceptBranch (actionsSoFar : List WatchAction)
    (eventsSoFar : List TaskEvent) (msg : String) (callbackTruthy : Bool) :
    TaskFinal :=
  let e := ExecResult.error (bgFailMsg msg)
  { result := some e
    running := false
    events := eventsSoFar ++ [.setResult e, .setRunningFalse] ++
      (if callbackTruthy then [.invokeCallback e] else [])
    actions := actionsSoFar }

/-- Translation of `CommandExecutor._execute_background_task`: spawn, poll until exit or
timeout, on timeout `terminate()` then `wait(timeout=5)` (whose
`TimeoutExpired` falls into the `except` branch — there is no `kill`),
`communicate()`, write the completion record, clear `running`, then invoke
the callback; an exception anywhere in that `try` block (including one raised
by the callback itself) runs the `except` branch. -/
def execute_background_task (command : String) (timeout : Nat)
    (outcome : BgOutcome) (cb : CallbackSpec) : TaskFinal :=
  match outcome with
  | .spawnRaises m => bgExceptBranch [] [] m (hasCb cb)
  | .finished out err code =>
      let r := bgResult command timeout out err code
      (match cb with
       | .noCallback =>
          { result := some r, running := false
            events := [.setResult r, .setRunningFalse]
            actions := [.spawn, .communicate] }
       | .succeeds =>
          { result := some r, running := false
            events := [.setResult r, .setRunningFalse, .invokeCallback r]
            actions := [.spawn, .communicate] }
       | .raises m =>
          bgExceptBranch [.spawn, .communicate]
            [.setResult r, .setRunningFalse, .invokeCallback r] m true)
  | .timedOutDies out err code =>
      let r := bgResult command timeout out err code
      (match cb with
       | .noCallback =>
          { result := some r, running := false
            events := [.setResult r, .setRunningFalse]
            actions := [.spawn, .terminate, .waitGrace, .communicate] }
       | .succeeds =>
          { result := some r, running := false
            events := [.setResult r, .setRunningFalse, .invokeCallback r]
            actions := [.spawn, .terminate, .waitGrace, .communicate] }
       | .raises m =>
          bgExceptBranch [.spawn, .terminate, .waitGrace, .communicate]
            [.setResult r, .setRunningFalse, .invokeCallback r] m true)
  | .timedOutSurvives m =>
      bgExceptBranch [.spawn, .terminate, .waitGrace] [] m (hasCb cb)

/-- The view dict returned by `get_background_task`
(`{id, command, start_time, running, result}`). -/
structure TaskView where
  id : String
  command : String
  start_time : Nat
  running : Bool
  result : Option ExecResult
deriving Repr, DecidableEq

/-- Translation of `CommandExecutor.get_background_task`: the not-found error dict or the
five-field view of the stored task. -/
def get_background_task (reg : List (String × BgTask)) (task_id : String) :
    Except String TaskView :=
  match dictLookup reg task_id with
  | none => .error ("任务不存在: " ++ task_id)
  | some t => .ok ⟨t.id, t.command, t.start_time, t.running, t.result⟩

/-- The loop of `clear_background_tasks` over `list(items)`: collect the ids
of tasks with `running == False` (in registry order) and delete them. -/
def clearLoop : List (String × BgTask) → List String × List (String × BgTask)
  | [] => ([], [])
  | (k, t) :: rest =>
      let (ids, keep) := clearLoop rest
      if t.running then (ids, (k, t) :: keep) else (k :: ids, keep)

/-- Translation of `CommandExecutor.clear_background_tasks`: returns the cleared ids and
their count, leaving only the still-running tasks registered. -/
def clear_background_tasks (reg : List (String × BgTask)) :
    (List String × Nat) × List (String × BgTask) :=
  let (cleared, keep) := clearLoop reg
  ((cleared, cleared.length), keep)

/-! ## The front door (`execute_command`) -/

/-- Python `x or d` for an optional integer (`0` is falsy, so
`timeout or self.timeout` replaces an explicit `0` by the default). -/
def pyOrNat (x : Option Nat) (d : Nat) : Nat :=
  match x with
  | none => d
  | some 0 => d
  | some t => t

/-- Python `x or d` for an optional string (`""` is falsy). -/
def pyOrStr (x : Option String) (d : String) : String :=
  match x with
  | none => d
  | some s => if s = "" then d else s

/-- `CommandExecutor.execute_command`: policy gate, then history recording,
then dispatch to the background or foreground path.  Returns the result dict,
the new history, the new task registry, and the list of commands for which a
process spawn was initiated (empty on denial and on spawn failure). -/
def execute_command (p : CommandPolicy) (self_timeout : Nat)
    (current_dir : String) (hist : List HistoryEntry)
    (reg : List (String × BgTask)) (command : String) (timeout : Option Nat)
    (background : Bool) (cwd : Option String) (now tick : Nat)
    (fg : RunOutcome) :
    ExecResult × List HistoryEntry × List (String × BgTask) × List String :=
  if !(is_command_allowed p command) then
    (.error denyMsg, hist, reg, [])
  else
    let t := pyOrNat timeout self_timeout
    let wd := pyOrStr cwd current_dir
    let hist' := add_to_history hist ⟨command, now, wd⟩
    if background then
      let (r, reg') := execute_background reg command t wd now tick
      (r, hist', reg', [command])
    else
      (execute_foreground command t fg, hist', reg,
        match fg with
        | .raised _ => []
        | _ => [command])

end CommandExecutor

namespace CommandExecutor

/-! ## Claim theorems about the policy -/

/-- C1: full characterisation of `_is_command_allowed`: a block-list hit
(trimmed-lowercased command starts with a lowercased block entry) forces the
answer `false` whatever the allow-list holds; and when the allow-list is
present and non-empty, the command is allowed iff its trimmed text starts with
some allow-list entry and it has no block-list hit. -/
theorem policy_isAllowed_characterization (p : CommandPolicy) (c : String) :
    (blockListHit p.blocked_commands c = true → is_command_allowed p c = false) ∧
    (∀ l, p.allowed_commands = some l → l ≠ [] →
      (is_command_allowed p c = true ↔
        (allowListHit l c = true ∧ blockListHit p.blocked_commands c = false))) := by
  constructor
  · intro hb
    unfold is_command_allowed
    match h : p.allowed_commands with
    | none => simp [hb]
    | some l =>
      by_cases ha : (!l.isEmpty && !allowListHit l c) = true
      · simp [ha]
      · simp [ha, hb]
  · intro l hl hne
    unfold is_command_allowed
    rw [hl]
    have hne' : l.isEmpty = false := by
      cases l with
      | nil => exact absurd rfl hne
      | cons a t => rfl
    cases ha : allowListHit l c <;> simp [hne', ha]

/-- Witness for C1: a concrete policy with allow-list `["git"]` and block-list
`["rm"]` admits `"git status"` and rejects `" rm -rf x"`. -/
theorem policy_isAllowed_characterization_witness :
    is_command_allowed ⟨some ["git"], ["rm"]⟩ "git status" = true ∧
    is_command_allowed ⟨some ["git"], ["rm"]⟩ " rm -rf x" = false := by
  refine ⟨?_, ?_⟩
  · exact (policy_isAllowed_characterization ⟨some ["git"], ["rm"]⟩ "git status").2
      ["git"] rfl (by decide) |>.mpr ⟨by decide, by decide⟩
  · exact (policy_isAllowed_characterization ⟨some ["git"], ["rm"]⟩ " rm -rf x").1
      (by decide)

/-- C4 counterexample: an executor constructed without a block-list
argument gets an *empty* block-list, and `rm -rf /` is allowed by it. -/
theorem default_blocklist_empty_counterexample :
    defaultPolicy.blocked_commands = [] ∧
    is_command_allowed defaultPolicy "rm -rf /" = true := by
  exact ⟨rfl, by decide⟩

/-- C4 amended: the constructor default block-list is empty, so a
default-constructed executor allows every command; the destructive
recursive-delete patterns are only supplied from outside, by the CLI layer's
settings fallback, under which `rm -rf /` is denied. -/
theorem default_blocklist_behavior (c : String) :
    defaultPolicy.blocked_commands = [] ∧
    is_command_allowed defaultPolicy c = true ∧
    is_command_allowed ⟨none, cliFallbackBlocked⟩ "rm -rf /" = false := by
  refine ⟨rfl, ?_, by decide⟩
  simp [defaultPolicy, initPolicy, init_blocked_commands, is_command_allowed, blockListHit]

end CommandExecutor

namespace CommandExecutor

/-! ## History lemmas and claims C6, C10 -/

/-- Closed form of repeated insertion: starting from a history within the cap,
inserting a batch keeps exactly the most recent `max_history` entries. -/
theorem foldl_add_to_history (es : List HistoryEntry) :
    ∀ h : List HistoryEntry, h.length ≤ max_history →
      List.foldl add_to_history h es =
        (h ++ es).drop (h.length + es.length - max_history) := by
  induction es with
  | nil =>
    intro h hh
    simp [Nat.sub_eq_zero_of_le hh]
  | cons e es' ih =>
    intro h hh
    rw [List.foldl_cons]
    by_cases hfull : h.length = max_history
    · have hstep : add_to_history h e = (h ++ [e]).tail := by
        unfold add_to_history
        simp [hfull]
      have hne : h ≠ [] := by
        intro hnil
        rw [hnil] at hfull
        simp [max_history] at hfull
      obtain ⟨hd, h', rfl⟩ := List.exists_cons_of_ne_nil hne
      have htail : ((hd :: h') ++ [e]).tail = h' ++ [e] := rfl
      rw [hstep, htail]
      have hlen' : (h' ++ [e]).length ≤ max_history := by
        have : (hd :: h').length = h'.length + 1 := by simp
        simp only [List.length_append, List.length_cons, List.length_nil] at *
        omega
      rw [ih (h' ++ [e]) hlen']
      have harith : (h' ++ [e]).length + es'.length - max_history = es'.length := by
        have : (hd :: h').length = h'.length + 1 := by simp
        simp only [List.length_append, List.length_cons, List.length_nil] at *
        omega
      have harith2 : (hd :: h').length + (e :: es').length - max_history
          = es'.length + 1 := by
        simp only [List.length_cons] at *
        omega
      rw [harith, harith2]
      have hassoc : (h' ++ [e]) ++ es' = h' ++ (e :: es') := by
        simp
      rw [hassoc]
      have : ((hd :: h') ++ (e :: es')) = hd :: (h' ++ (e :: es')) := rfl
      rw [this, List.drop_succ_cons]
    · have hlt : h.length < max_history := lt_of_le_of_ne hh hfull
      have hstep : add_to_history h e = h ++ [e] := by
        have hcond : ¬ max_history < (h ++ [e]).length := by
          simp only [List.length_append, List.length_cons, List.length_nil]
          omega
        simp only [add_to_history]
        rw [if_neg hcond]
      rw [hstep]
      have hlen' : (h ++ [e]).length ≤ max_history := by
        simp only [List.length_append, List.length_cons, List.length_nil]
        omega
      rw [ih (h ++ [e]) hlen']
      have hassoc : (h ++ [e]) ++ es' = h ++ (e :: es') := by simp
      have harith : (h ++ [e]).length + es'.length - max_history
          = h.length + (e :: es').length - max_history := by
        simp only [List.length_append, List.length_cons, List.length_nil]
        omega
      rw [hassoc, harith]

/-- C6: the history never exceeds `max_history` entries, and after
inserting `max_history + k` entries into a fresh executor,
`get_command_history max_history` returns exactly the last `max_history`
entries inserted, oldest first (the first `k` were evicted FIFO). -/
theorem history_capacity_fifo :
    (∀ es : List HistoryEntry, (List.foldl add_to_history [] es).length ≤ max_history) ∧
    (∀ (es : List HistoryEntry) (k : Nat), es.length = max_history + k →
      get_command_history (List.foldl add_to_history [] es) max_history = es.drop k) := by
  constructor
  · intro es
    rw [foldl_add_to_history es [] (by simp)]
    simp only [List.nil_append, List.length_nil, Nat.zero_add, List.length_drop]
    omega
  · intro es k hlen
    rw [foldl_add_to_history es [] (by simp)]
    simp only [List.nil_append, List.length_nil, Nat.zero_add, hlen]
    have hk : max_history + k - max_history = k := by omega
    rw [hk]
    unfold get_command_history
    have hm : ¬ (max_history = 0) := by simp [max_history]
    simp only [hm, if_false]
    have hdl : (es.drop k).length = max_history := by
      simp [List.length_drop, hlen]
    rw [hdl]
    simp

/-- Witness for C6 at 101 concrete insertions: the first entry is evicted. -/
theorem history_capacity_fifo_witness :
    get_command_history
      (List.foldl add_to_history []
        ((List.range (max_history + 1)).map (fun i => ⟨toString i, i, "/"⟩)))
      max_history
      = ((List.range (max_history + 1)).map (fun i => ⟨toString i, i, "/"⟩)).drop 1 :=
  history_capacity_fifo.2 _ 1 (by simp)

/-- C10: the history query returns the last `count` entries; for
`count = 0` the Python slice `[-0:]` denotes the whole list, so the entire
history is returned (not the empty list), and for `count ≥ length` all
entries are returned. -/
theorem history_query_edge_cases :
    (∀ h : List HistoryEntry, get_command_history h 0 = h) ∧
    (∀ (h : List HistoryEntry) (count : Nat), h.length ≤ count →
      get_command_history h count = h) ∧
    (∀ (h : List HistoryEntry) (count : Nat), 0 < count → count ≤ h.length →
      (get_command_history h count).length = count ∧
      h.take (h.length - count) ++ get_command_history h count = h) := by
  refine ⟨?_, ?_, ?_⟩
  · intro h
    simp [get_command_history]
  · intro h count hc
    unfold get_command_history
    by_cases h0 : count = 0
    · subst h0
      simp
    · simp only [h0, if_false, Nat.sub_eq_zero_of_le hc, List.drop_zero]
  · intro h count hpos hle
    have h0 : ¬ (count = 0) := by omega
    unfold get_command_history
    simp only [h0, if_false]
    constructor
    · rw [List.length_drop]
      omega
    · exact List.take_append_drop _ h

/-- Witness for C10's suffix part on a concrete two-entry history. -/
theorem history_query_edge_cases_witness :
    (get_command_history [⟨"a", 0, "/"⟩, ⟨"b", 1, "/"⟩] 1).length = 1 ∧
    List.take 1 [HistoryEntry.mk "a" 0 "/", HistoryEntry.mk "b" 1 "/"] ++
      get_command_history [⟨"a", 0, "/"⟩, ⟨"b", 1, "/"⟩] 1
      = [⟨"a", 0, "/"⟩, ⟨"b", 1, "/"⟩] :=
  history_query_edge_cases.2.2 [⟨"a", 0, "/"⟩, ⟨"b", 1, "/"⟩] 1 (by decide) (by decide)

end CommandExecutor

namespace CommandExecutor

/-! ## Error-message distinctness helpers -/

/-- Two strings with distinct same-length leading literals differ whatever
follows. -/
theorem string_append_ne_of_head_ne (p q a b : String)
    (hlen : p.data.length = q.data.length) (hne : p.data ≠ q.data) :
    p ++ a ≠ q ++ b := by
  intro h
  have hd := congrArg String.data h
  rw [String.data_append, String.data_append] at hd
  exact hne (List.append_inj hd hlen).1

/-- A string with a long leading literal differs from any shorter string. -/
theorem string_append_ne_of_len_lt (p a q : String)
    (hlen : q.data.length < p.data.length) : p ++ a ≠ q := by
  intro h
  have hd := congrArg String.data h
  rw [String.data_append] at hd
  have hl := congrArg List.length hd
  rw [List.length_append] at hl
  omega

/-- C5: a foreground run that exceeds its timeout yields the explicit timeout
error record and never a success record; a spawn-level exception yields the
failure error record; and the three error kinds — timeout, spawn failure,
policy denial — carry pairwise distinct messages. -/
theorem foreground_timeout_spawn_errors (command : String) (timeout : Nat)
    (m : String) :
    execute_foreground command timeout .timedOut = .error (fgTimeoutMsg timeout) ∧
    (∀ out err code cmd t bg,
      execute_foreground command timeout .timedOut ≠ .success out err code cmd t bg) ∧
    execute_foreground command timeout (.raised m) = .error (fgFailMsg m) ∧
    fgTimeoutMsg timeout ≠ fgFailMsg m ∧
    fgTimeoutMsg timeout ≠ denyMsg ∧
    fgFailMsg m ≠ denyMsg := by
  refine ⟨rfl, ?_, rfl, ?_, ?_, ?_⟩
  · intro out err code cmd t bg h
    exact ExecResult.noConfusion h
  · exact string_append_ne_of_head_ne "命令执行超时: " "命令执行失败: " _ _
      (by decide) (by decide)
  · exact string_append_ne_of_len_lt "命令执行超时: " _ _ (by decide)
  · exact string_append_ne_of_len_lt "命令执行失败: " _ _ (by decide)

/-- Witness for C5 at a concrete timed-out run and a concrete spawn failure. -/
theorem foreground_timeout_spawn_errors_witness :
    execute_foreground "sleep 100" 1 .timedOut = .error (fgTimeoutMsg 1) ∧
    execute_foreground "nosuchcmd" 30 (.raised "No such file or directory")
      = .error (fgFailMsg "No such file or directory") ∧
    fgTimeoutMsg 1 ≠ denyMsg :=
  ⟨(foreground_timeout_spawn_errors "sleep 100" 1 "x").1,
   (foreground_timeout_spawn_errors "nosuchcmd" 30 "No such file or directory").2.2.1,
   (foreground_timeout_spawn_errors "sleep 100" 1 "x").2.2.2.2.1⟩

/-- C3: a command denied by the policy gets the policy-denial error
immediately; the history and task registry are unchanged and no process
spawn is initiated. -/
theorem denied_command_no_side_effects (p : CommandPolicy) (self_timeout : Nat)
    (current_dir : String) (hist : List HistoryEntry)
    (reg : List (String × BgTask)) (command : String) (timeout : Option Nat)
    (background : Bool) (cwd : Option String) (now tick : Nat) (fg : RunOutcome)
    (h : is_command_allowed p command = false) :
    execute_command p self_timeout current_dir hist reg command timeout
      background cwd now tick fg = (.error denyMsg, hist, reg, []) := by
  simp [execute_command, h]

/-- Witness for C3: the blocked command `rm -rf /` is denied with no
side effects. -/
theorem denied_command_no_side_effects_witness :
    execute_command ⟨none, ["rm"]⟩ 30 "/" [] [] "rm -rf /" none false none 0 0
      (.completed "" "" 0) = (.error denyMsg, [], [], []) :=
  denied_command_no_side_effects _ _ _ _ _ _ _ _ _ _ _ _ (by decide)

/-- C2 counterexample: a background command still running when its timeout
elapses is terminated, but the task then records the completion record with
`success = true` — not a failed timed-out result — and no `kill` escalation
ever happens: a process surviving the 5-second grace makes the grace `wait`
raise into the except branch instead. -/
theorem watchdog_timeout_counterexample :
    (execute_background_task "sleep 100" 1 (.timedOutDies "" "" (-15)) .noCallback).result
      = some (.success "" "" (-15) "sleep 100" 1 true) ∧
    WatchAction.kill ∉
      (execute_background_task "sleep 100" 1 (.timedOutDies "" "" (-15)) .noCallback).actions ∧
    (execute_background_task "sleep 100" 1 (.timedOutSurvives "t/o") .noCallback).result
      = some (.error (bgFailMsg "t/o")) ∧
    WatchAction.kill ∉
      (execute_background_task "sleep 100" 1 (.timedOutSurvives "t/o") .noCallback).actions := by
  exact ⟨rfl, by decide, rfl, by decide⟩

/-- C2 amended: when the timeout elapses with the process still running, the
watchdog issues `terminate` followed by a single 5-second grace `wait` (no
`kill` escalation and no distinct timed-out state): if the process dies
within the grace, the task records the ordinary completion record — with
`success = true` and the exit code carrying the termination signal — and
`running = false`; if it survives the grace, the `wait` raises and the except
branch records an error result instead. -/
theorem watchdog_timeout_behavior (cmd : String) (t : Nat) (out err : String)
    (code : Int) (m : String) :
    execute_background_task cmd t (.timedOutDies out err code) .noCallback =
      { result := some (.success out err code cmd t true), running := false
        events := [.setResult (.success out err code cmd t true), .setRunningFalse]
        actions := [.spawn, .terminate, .waitGrace, .communicate] } ∧
    execute_background_task cmd t (.timedOutSurvives m) .noCallback =
      { result := some (.error (bgFailMsg m)), running := false
        events := [.setResult (.error (bgFailMsg m)), .setRunningFalse]
        actions := [.spawn, .terminate, .waitGrace] } :=
  ⟨rfl, rfl⟩

/-- C8 counterexample: a callback that raises falls into the watchdog's
except branch, which overwrites the already-written result with an error
record and invokes the callback a second time — the result is written twice,
the callback invoked twice, and the recorded result is altered. -/
theorem callback_failure_counterexample :
    (execute_background_task "echo hi" 30 (.finished "hi\n" "" 0) (.raises "boom")).events
      = [.setResult (.success "hi\n" "" 0 "echo hi" 30 true), .setRunningFalse,
         .invokeCallback (.success "hi\n" "" 0 "echo hi" 30 true),
         .setResult (.error (bgFailMsg "boom")), .setRunningFalse,
         .invokeCallback (.error (bgFailMsg "boom"))] ∧
    (execute_background_task "echo hi" 30 (.finished "hi\n" "" 0) (.raises "boom")).result
      = some (.error (bgFailMsg "boom")) :=
  ⟨rfl, rfl⟩

/-- C8 amended: when the callback returns normally the result is written
exactly once and the callback is invoked exactly once, strictly after the
write; but a callback that raises is caught by the watchdog's general except
branch, which overwrites the recorded result with an error record and invokes
the callback a second time with that error. -/
theorem callback_invocation_behavior (cmd : String) (t : Nat)
    (out err : String) (code : Int) (m : String) :
    execute_background_task cmd t (.finished out err code) .succeeds =
      { result := some (bgResult cmd t out err code), running := false
        events := [.setResult (bgResult cmd t out err code), .setRunningFalse,
                   .invokeCallback (bgResult cmd t out err code)]
        actions := [.spawn, .communicate] } ∧
    execute_background_task cmd t (.finished out err code) (.raises m) =
      { result := some (.error (bgFailMsg m)), running := false
        events := [.setResult (bgResult cmd t out err code), .setRunningFalse,
                   .invokeCallback (bgResult cmd t out err code),
                   .setResult (.error (bgFailMsg m)), .setRunningFalse,
                   .invokeCallback (.error (bgFailMsg m))]
        actions := [.spawn, .communicate] } :=
  ⟨rfl, rfl⟩

end CommandExecutor

namespace CommandExecutor

/-! ## Registry lemmas and claims C7, C9 -/

/-- Replacing the value at a present key makes lookup return it. -/
theorem dictLookup_replace (reg : List (String × BgTask)) (key : String)
    (v : BgTask) (h : (reg.map Prod.fst).contains key = true) :
    dictLookup (reg.map (fun p => if p.1 = key then (key, v) else p)) key
      = some v := by
  induction reg with
  | nil => simp at h
  | cons p rest ih =>
    obtain ⟨k, w⟩ := p
    by_cases hk : k = key
    · subst hk
      dsimp only [List.map_cons]
      split
      · simp [dictLookup]
      · next hcon => exact absurd rfl hcon
    · have h' : (rest.map Prod.fst).contains key = true := by
        simp only [List.map_cons, List.contains_cons] at h
        rcases Bool.or_eq_true_iff.mp h with h1 | h1
        · exact absurd (eq_of_beq h1).symm hk
        · exact h1
      dsimp only [List.map_cons]
      split
      · next hcon => exact absurd hcon hk
      · simp [dictLookup, hk, ih h']

/-- Appending a fresh key at the end makes lookup return its value. -/
theorem dictLookup_append_fresh (reg : List (String × BgTask)) (key : String)
    (v : BgTask) (h : (reg.map Prod.fst).contains key = false) :
    dictLookup (reg ++ [(key, v)]) key = some v := by
  induction reg with
  | nil => simp [dictLookup]
  | cons p rest ih =>
    obtain ⟨k, w⟩ := p
    have hk : ¬ (k = key) := by
      intro hkk
      subst hkk
      simp [List.contains_cons] at h
    have h' : (rest.map Prod.fst).contains key = false := by
      simp only [List.map_cons, List.contains_cons, beq_iff_eq,
        Bool.or_eq_false_iff] at h
      exact h.2
    simp [dictLookup, hk, ih h']

/-- Python dict-assignment semantics: after `d[key] = v`, `d[key]` is `v`. -/
theorem dictLookup_dictInsert (reg : List (String × BgTask)) (key : String)
    (v : BgTask) : dictLookup (dictInsert reg key v) key = some v := by
  unfold dictInsert
  by_cases hc : (reg.map Prod.fst).contains key = true
  · rw [if_pos hc]
    exact dictLookup_replace reg key v hc
  · rw [if_neg hc]
    exact dictLookup_append_fresh reg key v (Bool.not_eq_true _ ▸ eq_false_of_ne_true hc)

/-- C7 counterexample: two distinct submissions whose microsecond ticks
coincide receive the same task id, and the registry ends up with a single
entry — the first task was silently overwritten. -/
theorem task_id_collision_counterexample :
    (execute_background [] "sleep 1" 30 "/" 0 42).1
      = ExecResult.submitted (make_task_id 42) "sleep 1" 30 ∧
    (execute_background (execute_background [] "sleep 1" 30 "/" 0 42).2
        "sleep 2" 30 "/" 0 42).1
      = ExecResult.submitted (make_task_id 42) "sleep 2" 30 ∧
    (execute_background (execute_background [] "sleep 1" 30 "/" 0 42).2
        "sleep 2" 30 "/" 0 42).2.length = 1 := by
  refine ⟨rfl, rfl, ?_⟩
  decide

/-- C7 amended: the task id is a function of the submission's microsecond
tick alone, so any two submissions sharing a tick receive identical ids and
the second registration overwrites the first task in the registry; id
uniqueness is not guaranteed across submissions within the same microsecond. -/
theorem task_id_same_tick_overwrite (reg : List (String × BgTask))
    (c1 c2 wd1 wd2 : String) (to1 to2 n1 n2 t : Nat) :
    (execute_background reg c1 to1 wd1 n1 t).1
      = .submitted (make_task_id t) c1 to1 ∧
    (execute_background (execute_background reg c1 to1 wd1 n1 t).2
        c2 to2 wd2 n2 t).1
      = .submitted (make_task_id t) c2 to2 ∧
    dictLookup
      (execute_background (execute_background reg c1 to1 wd1 n1 t).2
        c2 to2 wd2 n2 t).2
      (make_task_id t)
      = some { id := make_task_id t, command := c2, start_time := n2
               timeout := to2, cwd := wd2, running := true, result := none } := by
  exact ⟨rfl, rfl, dictLookup_dictInsert _ _ _⟩

/-- Closed form of the clearing loop: it separates the registry into the ids
of the non-running tasks and the sub-registry of running ones. -/
theorem clearLoop_eq (reg : List (String × BgTask)) :
    clearLoop reg = ((reg.filter (fun q => !q.2.running)).map Prod.fst,
                     reg.filter (fun q => q.2.running)) := by
  induction reg with
  | nil => rfl
  | cons p rest ih =>
    obtain ⟨k, t⟩ := p
    cases hr : t.running <;> simp [clearLoop, ih, List.filter_cons, hr]

/-- Filtering out the non-running entries preserves lookup of running ones. -/
theorem dictLookup_filter_running (reg : List (String × BgTask)) (id : String)
    (t : BgTask) (h : dictLookup reg id = some t) (hr : t.running = true) :
    dictLookup (reg.filter (fun q => q.2.running)) id = some t := by
  induction reg with
  | nil => simp [dictLookup] at h
  | cons p rest ih =>
    obtain ⟨k, v⟩ := p
    by_cases hk : k = id
    · subst hk
      simp only [dictLookup, if_true, eq_self_iff_true] at h
      have hv : v = t := by simpa [dictLookup] using h
      subst hv
      simp [List.filter_cons, hr, dictLookup]
    · simp only [dictLookup, if_neg hk] at h
      cases hv : v.running <;>
        simp [List.filter_cons, hv, dictLookup, hk, ih h]

/-- C9: clearing removes exactly the tasks whose state is terminal
(`running = False`), returning their ids and count; the remaining registry
is exactly the running tasks, each still retrievable via
`get_background_task`. -/
theorem clear_completed_exact (reg : List (String × BgTask)) :
    (clear_background_tasks reg).1.2
      = (reg.filter (fun q => !q.2.running)).length ∧
    (clear_background_tasks reg).1.1
      = (reg.filter (fun q => !q.2.running)).map Prod.fst ∧
    (clear_background_tasks reg).2 = reg.filter (fun q => q.2.running) ∧
    (∀ id t, dictLookup reg id = some t → t.running = true →
      get_background_task (clear_background_tasks reg).2 id
        = .ok ⟨t.id, t.command, t.start_time, t.running, t.result⟩) := by
  have hc := clearLoop_eq reg
  refine ⟨?_, ?_, ?_, ?_⟩
  · simp [clear_background_tasks, hc]
  · simp [clear_background_tasks, hc]
  · simp [clear_background_tasks, hc]
  · intro id t h hr
    have h2 : (clear_background_tasks reg).2 = reg.filter (fun q => q.2.running) := by
      simp [clear_background_tasks, hc]
    rw [h2]
    unfold get_background_task
    rw [dictLookup_filter_running reg id t h hr]

/-- Witness for C9 on a registry with one running and one finished task: the
running task survives the clear and is still retrievable. -/
theorem clear_completed_exact_witness :
    get_background_task
      (clear_background_tasks
        [("bg_1", ⟨"bg_1", "sleep 9", 0, 30, "/", true, none⟩),
         ("bg_2", ⟨"bg_2", "ls", 0, 30, "/", false,
            some (.success "" "" 0 "ls" 30 true)⟩)]).2
      "bg_1"
      = .ok ⟨"bg_1", "sleep 9", 0, true, none⟩ :=
  (clear_completed_exact
      [("bg_1", ⟨"bg_1", "sleep 9", 0, 30, "/", true, none⟩),
       ("bg_2", ⟨"bg_2", "ls", 0, 30, "/", false,
          some (.success "" "" 0 "ls" 30 true)⟩)]).2.2.2
    "bg_1" ⟨"bg_1", "sleep 9", 0, 30, "/", true, none⟩ (by decide) rfl

end CommandExecutor
